import Mathlib

/-!
# School registry: intake and listing handlers

A shallow embedding of the two API handlers of the repository

* `src/pages/api/addSchool.js`  (the Intake Handler), and
* `src/pages/api/showSchools.js` (the Listing Handler),

together with the two JavaScript runtime facilities they rely on: regular
expression `test` on the two literal patterns of the intake handler, and
`Buffer.prototype.toString('base64')`.

JavaScript strings are modelled by Lean `String`s.  Every character the two
patterns distinguish (ASCII digits, `@`, `.`, the white space characters) lies
in the Basic Multilingual Plane, so matching per character and matching per
UTF-16 code unit agree on acceptance.
-/

namespace RenoTask

/-! ## Regular expressions (the fragment used by `addSchool.js`) -/

/-- Pattern bodies: a character class (or a single character), concatenation,
the greedy quantifier `+` and the counted quantifier `{n}`. -/
inductive Regex where
  | cls (p : Char → Bool)
  | seq (a b : Regex)
  | plus (a : Regex)
  | rep (n : Nat) (a : Regex)

/-- Run a matcher exactly `n` times in a row; the result lists every input
that can remain afterwards. -/
def iterate (f : List Char → List (List Char)) : Nat → List Char → List (List Char)
  | 0, s => [s]
  | n + 1, s => (f s).flatMap (iterate f n)

/-- Run a matcher one or more times, longest repetition first (greedy), with
backtracking to shorter ones.  An iteration that consumes nothing ends the
repetition.  `fuel` bounds the number of iterations. -/
def greedy (f : List Char → List (List Char)) : Nat → List Char → List (List Char)
  | 0, _ => []
  | fuel + 1, s =>
    (f s).flatMap fun r => if r.length < s.length then greedy f fuel r ++ [r] else [r]

/-- Backtracking matcher: all inputs that can remain after the pattern body
has matched a prefix of `s`, in priority order. -/
def Regex.run : Regex → List Char → List (List Char)
  | .cls p, s =>
    match s with
    | [] => []
    | c :: t => if p c then [t] else []
  | .seq a b, s => (a.run s).flatMap b.run
  | .plus a, s => greedy a.run (s.length + 1) s
  | .rep n a, s => iterate a.run n s

/-- A regular expression literal without flags: an optional leading `^`, a
body, and an optional trailing `$`. -/
structure Pattern where
  bol : Bool
  body : Regex
  eol : Bool

/-- Does the pattern match starting exactly at the input `t`?  With `$` the
match has to consume all of `t` (no `m` flag: `$` is the end of input). -/
def Pattern.matchAt (p : Pattern) (t : List Char) : Bool :=
  (p.body.run t).any fun r => !p.eol || r.isEmpty

/-- The method `RegExp.prototype.test`: is there a match anywhere in `s`?  With
`^` (no `m` flag) the only admissible start is the beginning of the input;
otherwise every position is tried. -/
def Pattern.test (p : Pattern) (s : String) : Bool :=
  if p.bol then p.matchAt s.data else s.data.tails.any p.matchAt

/-- The class `[0-9]`. -/
def isDigit (c : Char) : Bool := decide ('0' ≤ c) && decide (c ≤ '9')

/-- White space in the sense of `\s`: the ECMAScript WhiteSpace and
LineTerminator code points. -/
def isWhiteSpace (c : Char) : Bool :=
  c.toNat ∈ [0x09, 0x0A, 0x0B, 0x0C, 0x0D, 0x20, 0xA0, 0x1680, 0x2028, 0x2029,
    0x202F, 0x205F, 0x3000, 0xFEFF] || (decide (0x2000 ≤ c.toNat) && decide (c.toNat ≤ 0x200A))

/-- The class `\S`. -/
def nonSpace (c : Char) : Bool := !isWhiteSpace c

/-- The literal `/^[0-9]{10}$/` (`addSchool.js`, line 89). -/
def contactRe : Pattern :=
  { bol := true, body := .rep 10 (.cls isDigit), eol := true }

/-- The literal `/\S+@\S+\.\S+/` (`addSchool.js`, line 91). -/
def emailRe : Pattern :=
  { bol := false
    body := .seq (.plus (.cls nonSpace)) (.seq (.cls (· == '@'))
      (.seq (.plus (.cls nonSpace)) (.seq (.cls (· == '.')) (.plus (.cls nonSpace)))))
    eol := false }

/-! ## Buffers and base64 -/

/-- A `Buffer`: a sequence of bytes. -/
abbrev Bytes := List (Fin 256)

/-- The base64 alphabet of RFC 4648. -/
def b64Alphabet : List Char :=
  "ABCDEFGHIJKLMNOPQRSTUVWXYZabcdefghijklmnopqrstuvwxyz0123456789+/".data

/-- The character standing for a six-bit value. -/
def b64Char (v : Nat) : Char := b64Alphabet.getD v 'A'

/-- The six-bit value a character stands for, if it is in the alphabet. -/
def b64Val (c : Char) : Option Nat :=
  if c ∈ b64Alphabet then some (b64Alphabet.indexOf c) else none

/-- Standard base64 with `=` padding: three bytes become four characters. -/
def b64Encode : Bytes → List Char
  | [] => []
  | [a] => [b64Char (a.val / 4), b64Char (a.val % 4 * 16), '=', '=']
  | [a, b] =>
    [b64Char (a.val / 4), b64Char (a.val % 4 * 16 + b.val / 16), b64Char (b.val % 16 * 4), '=']
  | a :: b :: c :: rest =>
    b64Char (a.val / 4) :: b64Char (a.val % 4 * 16 + b.val / 16) ::
      b64Char (b.val % 16 * 4 + c.val / 64) :: b64Char (c.val % 64) :: b64Encode rest

/-- The method call `buffer.toString('base64')`. -/
def toBase64 (b : Bytes) : String := String.mk (b64Encode b)

/-- A byte from a natural number. -/
def byte (n : Nat) : Fin 256 := ⟨n % 256, Nat.mod_lt n (by decide)⟩

/-- Standard base64 decoding: groups of four characters, `=` padding allowed
in the last group only; `none` on malformed input. -/
def b64Decode : List Char → Option Bytes
  | [] => some []
  | c0 :: c1 :: c2 :: c3 :: rest =>
    if rest = [] ∧ c3 = '=' then
      if c2 = '=' then
        (b64Val c0).bind fun v0 => (b64Val c1).bind fun v1 =>
          some [byte (v0 * 4 + v1 / 16)]
      else
        (b64Val c0).bind fun v0 => (b64Val c1).bind fun v1 => (b64Val c2).bind fun v2 =>
          some [byte (v0 * 4 + v1 / 16), byte (v1 % 16 * 16 + v2 / 4)]
    else
      (b64Val c0).bind fun v0 => (b64Val c1).bind fun v1 => (b64Val c2).bind fun v2 =>
        (b64Val c3).bind fun v3 => (b64Decode rest).bind fun tl =>
          some (byte (v0 * 4 + v1 / 16) :: byte (v1 % 16 * 16 + v2 / 4) ::
            byte (v2 % 4 * 64 + v3) :: tl)
  | _ => none

/-- Decoding of a base64 string. -/
def fromBase64 (s : String) : Option Bytes := b64Decode s.data

/-! ## Shared runtime values -/

/-- A thrown JavaScript error: its `message`, its `code` (file system and
database errors carry one) and its `stack`. -/
structure JsError where
  message : String
  code : Option String
  stack : String
  deriving DecidableEq, Repr

/-- JSON bodies sent by the intake handler, one constructor per object shape;
the constructor names spell the keys. -/
inductive Body where
  | errorDetails (error : String) (details : List String)
  | messageId (message : String) (id : Nat)
  | errorMessage (error : String) (message : String) (stack : Option String)
  | errorOnly (error : String)
  deriving DecidableEq, Repr

/-- What `res.status(s).json(b)` sends. -/
structure Response where
  status : Nat
  body : Body
  deriving DecidableEq, Repr

/-- Truthiness of a value that is a string or `undefined`: only `undefined`
and the empty string are falsy. -/
def truthy : Option String → Bool
  | none => false
  | some s => decide (s ≠ "")

namespace AddSchool

/-! ## The intake handler (`src/pages/api/addSchool.js`) -/

/-- The text fields after `parseForm` has taken the first value of each. -/
structure Fields where
  name : Option String
  address : Option String
  city : Option String
  state : Option String
  contact : Option String
  email_id : Option String
  deriving DecidableEq, Repr

/-- An entry of `files`: the staged upload and the path it was written to. -/
structure ImageFile where
  filepath : Option String
  deriving DecidableEq, Repr

/-- The value `parseForm()` resolves to. -/
structure Parsed where
  fields : Fields
  image : Option ImageFile
  deriving DecidableEq, Repr

/-- An incoming request: its method and the outcome of parsing its body. -/
structure Request where
  method : String
  form : Except JsError Parsed

/-- The parameter list of the `INSERT` statement. -/
structure InsertParams where
  name : Option String
  address : Option String
  city : Option String
  state : Option String
  contact : Option String
  email_id : Option String
  image : Bytes
  deriving DecidableEq, Repr

/-- Observable actions of a run, in the order they happen. -/
inductive Effect where
  | mkdir
  | unlink (path : String)
  | readFile (path : String)
  | getConnection
  | insert (params : InsertParams)
  | log (label : String) (error : JsError)
  deriving DecidableEq, Repr

/-- The collaborators of the handler: the file system, the database and the
process environment.  `none` stands for a call that succeeds without a value. -/
structure World where
  mkdir : Option JsError
  unlink : String → Option JsError
  readFile : String → Except JsError Bytes
  getConnection : Option JsError
  insert : InsertParams → Except JsError Nat
  development : Bool

/-- The test `!contact || !/^[0-9]{10}$/.test(contact)` of line 89, negated. -/
def contactOk (contact : Option String) : Bool :=
  match contact with
  | none => false
  | some s => truthy (some s) && contactRe.test s

/-- The test `!email_id || !/\S+@\S+\.\S+/.test(email_id)` of line 91, negated. -/
def emailOk (email_id : Option String) : Bool :=
  match email_id with
  | none => false
  | some s => truthy (some s) && emailRe.test s

/-- The value `imageFile && imageFile.filepath` when it is truthy. -/
def stagedPath : Option ImageFile → Option String
  | some { filepath := some path } => if path ≠ "" then some path else none
  | _ => none

/-- Push `msg` when the condition holds. -/
def pushIf (cond : Bool) (msg : String) (errors : List String) : List String :=
  if cond then errors ++ [msg] else errors

/-- The list `validationErrors` built by lines 84 to 97. -/
def validationErrors (p : Parsed) : List String :=
  let e0 : List String := []
  let e1 := pushIf (!truthy p.fields.name) "Name is required" e0
  let e2 := pushIf (!truthy p.fields.address) "Address is required" e1
  let e3 := pushIf (!truthy p.fields.city) "City is required" e2
  let e4 := pushIf (!truthy p.fields.state) "State is required" e3
  let e5 := pushIf (!contactOk p.fields.contact) "Contact must be a 10-digit number" e4
  let e6 := pushIf (!emailOk p.fields.email_id) "Valid email is required" e5
  pushIf ((stagedPath p.image).isNone) "Image is required" e6

/-- The error thrown by reading `.filepath` of `undefined` (line 117). -/
def undefinedFilepathError : JsError :=
  { message := "Cannot read properties of undefined (reading 'filepath')"
    code := none
    stack := "TypeError" }

/-- The error thrown by `throw new Error('Invalid file path')` (line 118). -/
def invalidFilePathError : JsError :=
  { message := "Invalid file path", code := none, stack := "Error" }

/-- Lines 116 to 139: everything after the validation block. -/
def persist (w : World) (p : Parsed) : List Effect × Except JsError Response :=
  match p.image with
  | none => ([], .error undefinedFilepathError)
  | some imageFile =>
    if truthy imageFile.filepath then
      let path := imageFile.filepath.getD ""
      match w.readFile path with
      | .error e => ([.readFile path], .error e)
      | .ok imageBuffer =>
        match w.getConnection with
        | some e => ([.readFile path, .getConnection], .error e)
        | none =>
          let params : InsertParams :=
            { name := p.fields.name, address := p.fields.address, city := p.fields.city
              state := p.fields.state, contact := p.fields.contact
              email_id := p.fields.email_id, image := imageBuffer }
          match w.insert params with
          | .error e => ([.readFile path, .getConnection, .insert params], .error e)
          | .ok insertId =>
            match w.unlink path with
            | some e =>
              ([.readFile path, .getConnection, .insert params, .unlink path], .error e)
            | none =>
              ([.readFile path, .getConnection, .insert params, .unlink path],
                .ok { status := 201, body := .messageId "School added successfully" insertId })
    else ([], .error invalidFilePathError)

/-- Lines 70 to 139: the body of the inner `try`, after a successful parse. -/
def tryBody (w : World) (p : Parsed) : List Effect × Except JsError Response :=
  let errors := validationErrors p
  if errors.length > 0 then
    match stagedPath p.image with
    | some path =>
      let cleanup : List Effect :=
        match w.unlink path with
        | none => [.unlink path]
        | some cleanupError => [.unlink path, .log "Error cleaning up file:" cleanupError]
      (cleanup, .ok { status := 400, body := .errorDetails "Validation Failed" errors })
    | none => persist w p
  else persist w p

/-- The inner `catch` (lines 141 to 157). -/
def internalServerError (w : World) (error : JsError) : Response :=
  { status := 500
    body := .errorMessage "Internal Server Error" error.message
      (if w.development then some error.stack else none) }

/-- The function `ensureUploadDirectory` (lines 14 to 30): a failure of `mkdir`
is logged and, unless its code is `EEXIST`, thrown again. -/
def ensureUploadDirectory (w : World) : List Effect × Except JsError Unit :=
  match w.mkdir with
  | none => ([.mkdir], .ok ())
  | some error =>
    if error.code ≠ some "EEXIST" then
      ([.mkdir, .log "Error creating upload directory:" error], .error error)
    else ([.mkdir, .log "Error creating upload directory:" error], .ok ())

/-- The default export of `addSchool.js`: the response sent and the actions
performed, in order. -/
def handler (w : World) (req : Request) : Response × List Effect :=
  match ensureUploadDirectory w with
  | (setup, .error setupError) =>
    ({ status := 500, body := .errorMessage "Server Setup Error" setupError.message none },
      setup ++ [.log "Setup error:" setupError])
  | (setup, .ok _) =>
    if req.method = "POST" then
      match req.form with
      | .error error =>
        (internalServerError w error, setup ++ [.log "Full error details:" error])
      | .ok p =>
        match tryBody w p with
        | (effects, .ok response) => (response, setup ++ effects)
        | (effects, .error error) =>
          (internalServerError w error, setup ++ effects ++ [.log "Full error details:" error])
    else ({ status := 405, body := .errorOnly "Method Not Allowed" }, setup)

/-- The parameter lists of the inserts executed in a run, in order. -/
def inserts : List Effect → List InsertParams
  | [] => []
  | .insert params :: rest => params :: inserts rest
  | _ :: rest => inserts rest

/-! ### Sample inputs -/

/-- A world in which every collaborator succeeds; the staged file holds four
bytes and the insert generates the identifier 7. -/
def calmWorld : World :=
  { mkdir := none
    unlink := fun _ => none
    readFile := fun _ => .ok [byte 0xFF, byte 0xD8, byte 0xFF, byte 0xE0]
    getConnection := none
    insert := fun _ => .ok 7
    development := false }

/-- A world like `calmWorld` in which deleting a file fails. -/
def stickyWorld : World :=
  { calmWorld with
    unlink := fun _ => some { message := "EPERM: operation not permitted", code := some "EPERM",
                              stack := "Error" } }

/-- Six text fields that pass every check. -/
def goodFields : Fields :=
  { name := some "Green Valley School", address := some "12 Hill Road", city := some "Pune"
    state := some "Maharashtra", contact := some "1234567890", email_id := some "a@b.co" }

/-- A staged upload. -/
def stagedImage : ImageFile := { filepath := some "/app/uploads/photo.jpg" }

/-- A complete, valid submission. -/
def goodRequest : Request :=
  { method := "POST", form := .ok { fields := goodFields, image := some stagedImage } }

/-- A submission whose fields are all valid and which carries no image. -/
def noImageRequest : Request :=
  { method := "POST", form := .ok { fields := goodFields, image := none } }

/-- A submission with a staged image and a five-digit contact. -/
def shortContactRequest : Request :=
  { method := "POST"
    form := .ok { fields := { goodFields with contact := some "12345" }
                  image := some stagedImage } }

/-- A submission whose name, address, city and state have one character each. -/
def tersePlaceRequest : Request :=
  { method := "POST"
    form := .ok { fields := { goodFields with name := some "A", address := some "B",
                                              city := some "C", state := some "D" }
                  image := some stagedImage } }

end AddSchool

namespace ShowSchools

/-! ## The listing handler (`src/pages/api/showSchools.js`) -/

/-- A row of `SELECT id, name, address, city, image FROM schools`; a `NULL`
image is `none`, a blob (of any length) is `some`. -/
structure Row where
  id : Nat
  name : String
  address : String
  city : String
  image : Option Bytes
  deriving DecidableEq, Repr

/-- An element of the response array. -/
structure School where
  id : Nat
  name : String
  address : String
  city : String
  image : String
  deriving DecidableEq, Repr

/-- The callback of `rows.map` (lines 9 to 14).  A `Buffer` is an object and so
always truthy, also when empty. -/
def withImage (school : Row) : School :=
  { id := school.id, name := school.name, address := school.address, city := school.city
    image :=
      match school.image with
      | some blob => "data:image/jpeg;base64," ++ toBase64 blob
      | none => "/placeholder-image.jpg" }

/-- Bodies sent by the listing handler. -/
inductive ListBody where
  | schools (items : List School)
  | rawError (error : JsError)
  deriving DecidableEq, Repr

/-- What the listing handler sends. -/
structure ListResponse where
  status : Nat
  body : ListBody
  deriving DecidableEq, Repr

/-- The database as the listing handler sees it. -/
structure World where
  getConnection : Option JsError
  query : Except JsError (List Row)

/-- The default export of `showSchools.js`. -/
def handler (w : World) : ListResponse :=
  match w.getConnection with
  | some error => { status := 500, body := .rawError error }
  | none =>
    match w.query with
    | .error error => { status := 500, body := .rawError error }
    | .ok rows => { status := 200, body := .schools (rows.map withImage) }

/-- The length of the data URI prefix. -/
def prefixLength : Nat := "data:image/jpeg;base64,".length

/-- A database holding one school with a two-byte image and one without. -/
def twoRowWorld : World :=
  { getConnection := none
    query := .ok [ { id := 1, name := "Green Valley School", address := "12 Hill Road",
                     city := "Pune", image := some [byte 0xFF, byte 0xD8] },
                   { id := 2, name := "Lake View", address := "3 Shore Lane", city := "Goa",
                     image := none } ] }

end ShowSchools

/-! ## The shapes the specification names -/

/-- A string of exactly ten characters, each an ASCII digit. -/
def TenDigits (s : String) : Prop :=
  s.length = 10 ∧ ∀ c ∈ s.data, '0' ≤ c ∧ c ≤ '9'

/-- The shape local@domain.tld: one or more non-white-space characters, an
at sign, one or more non-white-space characters, a dot, one or more
non-white-space characters, and nothing else. -/
def EmailShape (cs : List Char) : Prop :=
  ∃ l d t : List Char, cs = l ++ '@' :: (d ++ '.' :: t) ∧ l ≠ [] ∧ d ≠ [] ∧ t ≠ [] ∧
    (∀ c ∈ l, isWhiteSpace c = false) ∧ (∀ c ∈ d, isWhiteSpace c = false) ∧
    (∀ c ∈ t, isWhiteSpace c = false)

/-- Some contiguous part of the string has the shape local@domain.tld. -/
def ContainsEmailShape (cs : List Char) : Prop :=
  ∃ pre mid post : List Char, cs = pre ++ mid ++ post ∧ EmailShape mid

/-! ## Facts about the matcher -/

theorem run_cls_mem (p : Char → Bool) (s r : List Char) :
    r ∈ (Regex.cls p).run s ↔ ∃ c, p c = true ∧ s = c :: r := by
  cases s with
  | nil => simp [Regex.run]
  | cons c t =>
    by_cases h : p c = true
    · simp only [Regex.run, h, if_true, List.mem_singleton, List.cons.injEq]
      constructor
      · rintro rfl
        exact ⟨c, h, rfl, rfl⟩
      · rintro ⟨d, -, -, ht⟩
        exact ht.symm
    · simp only [Regex.run, h, List.cons.injEq]
      constructor
      · intro hr
        simp at hr
      · rintro ⟨d, hd, rfl, -⟩
        exact absurd hd h

theorem iterate_cls_mem (p : Char → Bool) (n : Nat) (s r : List Char) :
    r ∈ iterate (Regex.cls p).run n s ↔
      ∃ l : List Char, l.length = n ∧ (∀ c ∈ l, p c = true) ∧ s = l ++ r := by
  induction n generalizing s with
  | zero =>
    simp only [iterate, List.mem_singleton, List.length_eq_zero]
    constructor
    · rintro rfl
      exact ⟨[], rfl, by simp, rfl⟩
    · rintro ⟨l, rfl, -, rfl⟩
      rfl
  | succ n ih =>
    simp only [iterate, List.mem_flatMap, run_cls_mem, ih]
    constructor
    · rintro ⟨m, ⟨c, hc, rfl⟩, l, hl, hp, rfl⟩
      refine ⟨c :: l, by simp [hl], ?_, rfl⟩
      intro d hd
      rcases List.mem_cons.mp hd with rfl | hd
      · exact hc
      · exact hp d hd
    · rintro ⟨l, hl, hp, rfl⟩
      cases l with
      | nil => simp at hl
      | cons c l =>
        refine ⟨l ++ r, ⟨c, hp c (List.mem_cons_self _ _), rfl⟩, l, ?_, ?_, rfl⟩
        · simpa using hl
        · intro d hd
          exact hp d (List.mem_cons_of_mem _ hd)

theorem greedy_cls_mem (p : Char → Bool) (fuel : Nat) (s r : List Char) :
    r ∈ greedy (Regex.cls p).run fuel s ↔
      ∃ l : List Char, l ≠ [] ∧ l.length ≤ fuel ∧ (∀ c ∈ l, p c = true) ∧ s = l ++ r := by
  induction fuel generalizing s with
  | zero =>
    simp only [greedy, List.not_mem_nil, false_iff]
    rintro ⟨l, hne, hlen, -, -⟩
    exact hne (List.length_eq_zero.mp (Nat.le_zero.mp hlen))
  | succ fuel ih =>
    simp only [greedy, List.mem_flatMap, run_cls_mem]
    constructor
    · rintro ⟨m, ⟨c, hc, rfl⟩, hr⟩
      rw [if_pos (by simp), List.mem_append, ih, List.mem_singleton] at hr
      rcases hr with ⟨l, -, hlen, hp, rfl⟩ | rfl
      · refine ⟨c :: l, by simp, by simpa using hlen, ?_, rfl⟩
        intro d hd
        rcases List.mem_cons.mp hd with rfl | hd
        · exact hc
        · exact hp d hd
      · exact ⟨[c], by simp, by simp, by simpa using hc, rfl⟩
    · rintro ⟨l, hne, hlen, hp, rfl⟩
      cases l with
      | nil => exact absurd rfl hne
      | cons c l =>
        refine ⟨l ++ r, ⟨c, hp c (List.mem_cons_self _ _), rfl⟩, ?_⟩
        rw [if_pos (by simp), List.mem_append, ih, List.mem_singleton]
        by_cases hl : l = []
        · right
          simp [hl]
        · left
          refine ⟨l, hl, by simpa using hlen, ?_, rfl⟩
          intro d hd
          exact hp d (List.mem_cons_of_mem _ hd)

theorem plus_cls_mem (p : Char → Bool) (s r : List Char) :
    r ∈ (Regex.plus (.cls p)).run s ↔
      ∃ l : List Char, l ≠ [] ∧ (∀ c ∈ l, p c = true) ∧ s = l ++ r := by
  show r ∈ greedy (Regex.cls p).run (s.length + 1) s ↔ _
  rw [greedy_cls_mem]
  constructor
  · rintro ⟨l, hne, -, hp, hs⟩
    exact ⟨l, hne, hp, hs⟩
  · rintro ⟨l, hne, hp, rfl⟩
    exact ⟨l, hne, by simp; omega, hp, rfl⟩

theorem run_seq_mem (a b : Regex) (s r : List Char) :
    r ∈ (Regex.seq a b).run s ↔ ∃ m ∈ a.run s, r ∈ b.run m := by
  show r ∈ (a.run s).flatMap b.run ↔ _
  exact List.mem_flatMap

theorem isDigit_iff (c : Char) : isDigit c = true ↔ '0' ≤ c ∧ c ≤ '9' := by
  simp [isDigit]

theorem contactRe_test_iff (s : String) : contactRe.test s = true ↔ TenDigits s := by
  show ((iterate (Regex.cls isDigit).run 10 s.data).any fun r => !true || r.isEmpty) = true ↔ _
  simp only [List.any_eq_true, iterate_cls_mem, Bool.not_true, Bool.false_or,
    List.isEmpty_iff, TenDigits, String.length]
  constructor
  · rintro ⟨r, ⟨l, hl, hp, hs⟩, rfl⟩
    rw [hs, List.append_nil]
    exact ⟨hl, fun c hc => (isDigit_iff c).mp (hp c hc)⟩
  · rintro ⟨hl, hp⟩
    exact ⟨[], ⟨s.data, hl, fun c hc => (isDigit_iff c).mpr (hp c hc), by simp⟩, rfl⟩

theorem emailRe_body_mem (s r : List Char) :
    r ∈ emailRe.body.run s ↔ ∃ mid, s = mid ++ r ∧ EmailShape mid := by
  simp only [emailRe, run_seq_mem, plus_cls_mem, run_cls_mem, nonSpace, Bool.not_eq_true',
    beq_iff_eq]
  constructor
  · rintro ⟨m1, ⟨l, hl, hlp, rfl⟩, m2, ⟨c1, rfl, rfl⟩, m3, ⟨d, hd, hdp, rfl⟩, m4,
      ⟨c2, rfl, rfl⟩, t, ht, htp, rfl⟩
    exact ⟨l ++ '@' :: (d ++ '.' :: t), by simp, l, d, t, rfl, hl, hd, ht, hlp, hdp, htp⟩
  · rintro ⟨mid, rfl, l, d, t, rfl, hl, hd, ht, hlp, hdp, htp⟩
    exact ⟨'@' :: (d ++ '.' :: (t ++ r)), ⟨l, hl, hlp, by simp⟩, d ++ '.' :: (t ++ r),
      ⟨'@', rfl, rfl⟩, '.' :: (t ++ r), ⟨d, hd, hdp, rfl⟩, t ++ r, ⟨'.', rfl, rfl⟩,
      t, ht, htp, rfl⟩

theorem emailRe_test_iff (s : String) :
    emailRe.test s = true ↔ ContainsEmailShape s.data := by
  show (s.data.tails.any fun t => (emailRe.body.run t).any fun r => !false || r.isEmpty) = true
    ↔ _
  simp only [List.any_eq_true, List.mem_tails, emailRe_body_mem, Bool.not_false, Bool.true_or,
    and_true, ContainsEmailShape]
  constructor
  · rintro ⟨t, ⟨pre, hs⟩, r, mid, rfl, hmid⟩
    exact ⟨pre, mid, r, by rw [← hs, List.append_assoc], hmid⟩
  · rintro ⟨pre, mid, post, hs, hmid⟩
    exact ⟨mid ++ post, ⟨pre, by rw [hs, List.append_assoc]⟩, post, mid, rfl, hmid⟩

theorem emailShape_ne_nil {cs : List Char} (h : EmailShape cs) : cs ≠ [] := by
  obtain ⟨l, d, t, rfl, hl, -⟩ := h
  simp [hl]

theorem containsEmailShape_of_shape {cs : List Char} (h : EmailShape cs) :
    ContainsEmailShape cs :=
  ⟨[], cs, [], by simp, h⟩

theorem truthy_some_iff (s : String) : truthy (some s) = true ↔ s.data ≠ [] := by
  simp [truthy, String.ext_iff]

theorem truthy_iff (v : Option String) :
    truthy v = true ↔ ∃ s, v = some s ∧ 1 ≤ s.length := by
  cases v with
  | none => simp [truthy]
  | some s =>
    rw [truthy_some_iff]
    constructor
    · intro h
      exact ⟨s, rfl, List.length_pos.mpr h⟩
    · rintro ⟨s', hs, hlen⟩
      cases hs
      exact List.length_pos.mp hlen

/-! ## Facts about base64 -/

theorem b64Val_b64Char_fin : ∀ v : Fin 64, b64Val (b64Char v.val) = some v.val := by
  decide

theorem b64Char_ne_pad_fin : ∀ v : Fin 64, b64Char v.val ≠ '=' := by
  decide

theorem b64Val_b64Char {v : Nat} (h : v < 64) : b64Val (b64Char v) = some v :=
  b64Val_b64Char_fin ⟨v, h⟩

theorem b64Char_ne_pad {v : Nat} (h : v < 64) : b64Char v ≠ '=' :=
  b64Char_ne_pad_fin ⟨v, h⟩

theorem byte_eq (a : Fin 256) (n : Nat) (h : n = a.val) : byte n = a := by
  apply Fin.ext
  show n % 256 = a.val
  have := a.isLt
  omega

theorem b64Decode_b64Encode (b : Bytes) : b64Decode (b64Encode b) = some b := by
  induction b using b64Encode.induct with
  | case1 => rfl
  | case2 a =>
    have ha := a.isLt
    simp only [b64Encode, b64Decode, and_self, if_true]
    rw [b64Val_b64Char (by omega), b64Val_b64Char (by omega)]
    simp only [Option.some_bind, Option.some.injEq, List.cons.injEq, and_true]
    exact byte_eq a _ (by omega)
  | case3 a b =>
    have ha := a.isLt
    have hb := b.isLt
    simp only [b64Encode, b64Decode, and_self, if_true]
    rw [if_neg (b64Char_ne_pad (by omega)), b64Val_b64Char (by omega),
      b64Val_b64Char (by omega), b64Val_b64Char (by omega)]
    simp only [Option.some_bind, Option.some.injEq, List.cons.injEq, and_true]
    exact ⟨byte_eq a _ (by omega), byte_eq b _ (by omega)⟩
  | case4 a b c rest ih =>
    have ha := a.isLt
    have hb := b.isLt
    have hc := c.isLt
    simp only [b64Encode, b64Decode]
    rw [if_neg (fun h => b64Char_ne_pad (by omega) h.2), b64Val_b64Char (by omega),
      b64Val_b64Char (by omega), b64Val_b64Char (by omega), b64Val_b64Char (by omega), ih]
    simp only [Option.some_bind, Option.some.injEq, List.cons.injEq, and_true]
    exact ⟨byte_eq a _ (by omega), byte_eq b _ (by omega), byte_eq c _ (by omega)⟩

namespace AddSchool

/-! ## Facts about the intake handler -/

theorem mem_pushIf (cond : Bool) (msg m : String) (errors : List String) :
    m ∈ pushIf cond msg errors ↔ m ∈ errors ∨ (cond = true ∧ m = msg) := by
  cases cond <;> simp [pushIf]

theorem pushIf_eq_nil (cond : Bool) (msg : String) (errors : List String) :
    pushIf cond msg errors = [] ↔ errors = [] ∧ cond = false := by
  cases cond <;> simp [pushIf]

theorem validationErrors_eq_nil_iff (p : Parsed) :
    validationErrors p = [] ↔
      truthy p.fields.name = true ∧ truthy p.fields.address = true ∧
      truthy p.fields.city = true ∧ truthy p.fields.state = true ∧
      contactOk p.fields.contact = true ∧ emailOk p.fields.email_id = true ∧
      (stagedPath p.image).isSome = true := by
  simp only [validationErrors, pushIf_eq_nil, Bool.not_eq_false', true_and, and_assoc]
  cases stagedPath p.image <;> simp

theorem inserts_append (a b : List Effect) : inserts (a ++ b) = inserts a ++ inserts b := by
  induction a with
  | nil => rfl
  | cons e a ih => cases e <;> simp [inserts, ih]

theorem inserts_setup (w : World) : inserts (ensureUploadDirectory w).1 = [] := by
  unfold ensureUploadDirectory
  cases w.mkdir with
  | none => rfl
  | some error => by_cases h : error.code = some "EEXIST" <;> simp [h, inserts]

theorem stagedPath_eq_some {image : Option ImageFile} {path : String}
    (h : stagedPath image = some path) :
    ∃ imageFile, image = some imageFile ∧ imageFile.filepath = some path ∧
      truthy imageFile.filepath = true := by
  cases image with
  | none => simp [stagedPath] at h
  | some imageFile =>
    obtain ⟨filepath⟩ := imageFile
    cases filepath with
    | none => simp [stagedPath] at h
    | some q =>
      by_cases hq : q = ""
      · simp [stagedPath, hq] at h
      · simp only [stagedPath, hq, ne_eq, not_false_eq_true, if_true, Option.some.injEq] at h
        subst h
        exact ⟨_, rfl, rfl, by simp [truthy, hq]⟩

theorem stagedPath_of_truthy {imageFile : ImageFile} (h : truthy imageFile.filepath = true) :
    stagedPath (some imageFile) = some (imageFile.filepath.getD "") := by
  obtain ⟨filepath⟩ := imageFile
  cases filepath with
  | none => simp [truthy] at h
  | some q =>
    have hq : q ≠ "" := by simpa [truthy] using h
    simp [stagedPath, hq]

theorem persist_inserts {w : World} {p : Parsed} {params : InsertParams}
    (h : params ∈ inserts (persist w p).1) :
    ∃ path, stagedPath p.image = some path ∧ w.readFile path = .ok params.image ∧
      params.name = p.fields.name ∧ params.address = p.fields.address ∧
      params.city = p.fields.city ∧ params.state = p.fields.state ∧
      params.contact = p.fields.contact ∧ params.email_id = p.fields.email_id := by
  unfold persist at h
  cases himg : p.image with
  | none => simp [himg, inserts] at h
  | some imageFile =>
    simp only [himg] at h
    by_cases ht : truthy imageFile.filepath = true
    · simp only [ht, if_true] at h
      refine ⟨imageFile.filepath.getD "", stagedPath_of_truthy ht, ?_⟩
      cases hr : w.readFile (imageFile.filepath.getD "") with
      | error e => simp [hr, inserts] at h
      | ok imageBuffer =>
        simp only [hr] at h
        cases hc : w.getConnection with
        | some e => simp [hc, inserts] at h
        | none =>
          simp only [hc] at h
          have key : params = ⟨p.fields.name, p.fields.address, p.fields.city, p.fields.state,
              p.fields.contact, p.fields.email_id, imageBuffer⟩ := by
            split at h
            · simpa [inserts] using h
            · split at h <;> simpa [inserts] using h
          subst key
          exact ⟨rfl, rfl, rfl, rfl, rfl, rfl, rfl⟩
    · simp [ht, inserts] at h

theorem persist_of_not_staged {w : World} {p : Parsed} (h : stagedPath p.image = none) :
    ∃ e, persist w p = ([], .error e) := by
  unfold persist
  cases himg : p.image with
  | none => exact ⟨_, rfl⟩
  | some imageFile =>
    by_cases ht : truthy imageFile.filepath = true
    · rw [himg, stagedPath_of_truthy ht] at h
      cases h
    · simp only [ht]
      exact ⟨_, rfl⟩

theorem tryBody_inserts {w : World} {p : Parsed} {params : InsertParams}
    (h : params ∈ inserts (tryBody w p).1) :
    validationErrors p = [] ∧ params ∈ inserts (persist w p).1 := by
  unfold tryBody at h
  by_cases hlen : (validationErrors p).length > 0
  · simp only [hlen, if_true] at h
    cases hs : stagedPath p.image with
    | some path =>
      simp only [hs] at h
      cases hu : w.unlink path <;> simp [hu, inserts] at h
    | none =>
      simp only [hs] at h
      obtain ⟨e, he⟩ := persist_of_not_staged (w := w) hs
      simp [he, inserts] at h
  · simp only [hlen, if_false] at h
    exact ⟨List.length_eq_zero.mp (by omega), h⟩

theorem handler_inserts {w : World} {req : Request} {params : InsertParams}
    (h : params ∈ inserts (handler w req).2) :
    ∃ p, req.form = .ok p ∧ params ∈ inserts (tryBody w p).1 := by
  unfold handler at h
  have hsetup := inserts_setup w
  rcases hw : ensureUploadDirectory w with ⟨setup, _ | _⟩
  · rw [hw] at h hsetup
    simp [inserts_append, inserts, hsetup] at h
  · rw [hw] at h hsetup
    simp only at h hsetup
    by_cases hm : req.method = "POST"
    · simp only [hm, if_true] at h
      cases hf : req.form with
      | error e => simp [hf, inserts_append, inserts, hsetup] at h
      | ok p =>
        refine ⟨p, rfl, ?_⟩
        simp only [hf] at h
        rcases ht : tryBody w p with ⟨effects, _ | _⟩
        · rw [ht] at h
          simpa [inserts_append, inserts, hsetup] using h
        · rw [ht] at h
          simpa [inserts_append, inserts, hsetup] using h
    · simp [hm, hsetup] at h

theorem handler_of_parsed {w : World} {req : Request} {p : Parsed}
    (hsetup : (ensureUploadDirectory w).2 = .ok ()) (hmethod : req.method = "POST")
    (hform : req.form = .ok p) :
    handler w req =
      match tryBody w p with
      | (effects, .ok response) => (response, (ensureUploadDirectory w).1 ++ effects)
      | (effects, .error error) =>
        (internalServerError w error,
          (ensureUploadDirectory w).1 ++ effects ++ [.log "Full error details:" error]) := by
  unfold handler
  rcases hw : ensureUploadDirectory w with ⟨setup, _ | _⟩
  · rw [hw] at hsetup
    cases hsetup
  · simp only [hmethod, hform, if_true]

theorem mem_validationErrors (p : Parsed) (m : String) :
    m ∈ validationErrors p ↔
      (truthy p.fields.name = false ∧ m = "Name is required") ∨
      (truthy p.fields.address = false ∧ m = "Address is required") ∨
      (truthy p.fields.city = false ∧ m = "City is required") ∨
      (truthy p.fields.state = false ∧ m = "State is required") ∨
      (contactOk p.fields.contact = false ∧ m = "Contact must be a 10-digit number") ∨
      (emailOk p.fields.email_id = false ∧ m = "Valid email is required") ∨
      ((stagedPath p.image).isNone = true ∧ m = "Image is required") := by
  simp only [validationErrors, mem_pushIf, List.not_mem_nil, false_or, Bool.not_eq_true',
    or_assoc]

theorem contactOk_iff (contact : Option String) :
    contactOk contact = true ↔ ∃ s, contact = some s ∧ TenDigits s := by
  cases contact with
  | none => simp [contactOk]
  | some s =>
    simp only [contactOk, Bool.and_eq_true, contactRe_test_iff, truthy_some_iff,
      Option.some.injEq, exists_eq_left']
    constructor
    · exact fun h => h.2
    · intro h
      refine ⟨fun hnil => ?_, h⟩
      have := h.1
      simp [String.length, hnil] at this

theorem emailOk_iff (email_id : Option String) :
    emailOk email_id = true ↔ ∃ s, email_id = some s ∧ ContainsEmailShape s.data := by
  cases email_id with
  | none => simp [emailOk]
  | some s =>
    simp only [emailOk, Bool.and_eq_true, emailRe_test_iff, truthy_some_iff,
      Option.some.injEq, exists_eq_left']
    constructor
    · exact fun h => h.2
    · intro h
      refine ⟨fun hnil => ?_, h⟩
      obtain ⟨pre, mid, post, hs, hmid⟩ := h
      rw [hnil] at hs
      have : mid = [] := by
        have := congrArg List.length hs
        simp at this
        exact List.length_eq_zero.mp (by omega)
      exact emailShape_ne_nil hmid this

/-! ## The claims about the intake handler -/

/-- C1, evaluated on the code: a POST whose six text fields are valid and which
carries no image violates exactly one constraint (the violation list is
`["Image is required"]`), yet the handler answers 500 `Internal Server Error`
with the message of the `TypeError` raised by reading `imageFile.filepath`,
not 400 with the violation list.  No insert is executed. -/
theorem missing_image_answers_500 :
    (match noImageRequest.form with
      | .ok p => validationErrors p
      | .error _ => []) = ["Image is required"] ∧
    handler calmWorld noImageRequest =
      ({ status := 500
         body := .errorMessage "Internal Server Error"
           "Cannot read properties of undefined (reading 'filepath')" none },
        [.mkdir, .log "Full error details:" undefinedFilepathError]) ∧
    inserts (handler calmWorld noImageRequest).2 = [] := by
  decide

/-- C2: a POST that parses to six non-empty text fields with a ten-digit
contact and an email of the shape local@domain.tld, with an image staged under
a file path, and for which reading the staged file, connecting, inserting and
deleting the staged file all succeed, executes exactly one insert, with the
parameters name, address, city, state, contact, email_id and the bytes read
from the staged file, and is answered 201 with the message
`School added successfully` and the identifier that insert generated. -/
theorem valid_submission_is_inserted_once (w : World) (req : Request) (p : Parsed)
    (name address city state contact email_id path : String) (imageBuffer : Bytes) (id : Nat)
    (hsetup : (ensureUploadDirectory w).2 = .ok ())
    (hmethod : req.method = "POST") (hform : req.form = .ok p)
    (hfields : p.fields = ⟨some name, some address, some city, some state, some contact,
      some email_id⟩)
    (hname : name ≠ "") (haddress : address ≠ "") (hcity : city ≠ "") (hstate : state ≠ "")
    (hcontact : TenDigits contact) (hemail : EmailShape email_id.data)
    (himage : p.image = some ⟨some path⟩) (hpath : path ≠ "")
    (hread : w.readFile path = .ok imageBuffer) (hconn : w.getConnection = none)
    (hinsert : w.insert ⟨some name, some address, some city, some state, some contact,
      some email_id, imageBuffer⟩ = .ok id)
    (hunlink : w.unlink path = none) :
    (handler w req).1 = { status := 201, body := .messageId "School added successfully" id } ∧
    (handler w req).2 = (ensureUploadDirectory w).1 ++
      [.readFile path, .getConnection,
        .insert ⟨some name, some address, some city, some state, some contact, some email_id,
          imageBuffer⟩,
        .unlink path] ∧
    inserts (handler w req).2 =
      [⟨some name, some address, some city, some state, some contact, some email_id,
        imageBuffer⟩] := by
  have hvalid : validationErrors p = [] := by
    rw [validationErrors_eq_nil_iff, hfields, himage]
    refine ⟨by simp [truthy, hname], by simp [truthy, haddress], by simp [truthy, hcity],
      by simp [truthy, hstate], (contactOk_iff _).mpr ⟨contact, rfl, hcontact⟩,
      (emailOk_iff _).mpr ⟨email_id, rfl, containsEmailShape_of_shape hemail⟩,
      by simp [stagedPath, hpath]⟩
  have hpersist : persist w p =
      ([.readFile path, .getConnection,
        .insert ⟨some name, some address, some city, some state, some contact, some email_id,
          imageBuffer⟩,
        .unlink path],
      .ok { status := 201, body := .messageId "School added successfully" id }) := by
    simp [persist, himage, hfields, truthy, hpath, hread, hconn, hinsert, hunlink]
  have htry : tryBody w p = persist w p := by
    simp [tryBody, hvalid]
  rw [handler_of_parsed hsetup hmethod hform, htry, hpersist]
  refine ⟨rfl, rfl, ?_⟩
  simp [inserts_append, inserts_setup, inserts]

/-- Witness of C2: the sample valid submission in the sample world. -/
theorem valid_submission_is_inserted_once_witness :
    (handler calmWorld goodRequest).1 =
      { status := 201, body := .messageId "School added successfully" 7 } ∧
    (handler calmWorld goodRequest).2 = (ensureUploadDirectory calmWorld).1 ++
      [.readFile "/app/uploads/photo.jpg", .getConnection,
        .insert ⟨some "Green Valley School", some "12 Hill Road", some "Pune",
          some "Maharashtra", some "1234567890", some "a@b.co",
          [byte 0xFF, byte 0xD8, byte 0xFF, byte 0xE0]⟩,
        .unlink "/app/uploads/photo.jpg"] ∧
    inserts (handler calmWorld goodRequest).2 =
      [⟨some "Green Valley School", some "12 Hill Road", some "Pune", some "Maharashtra",
        some "1234567890", some "a@b.co", [byte 0xFF, byte 0xD8, byte 0xFF, byte 0xE0]⟩] :=
  valid_submission_is_inserted_once calmWorld goodRequest
    { fields := goodFields, image := some stagedImage }
    "Green Valley School" "12 Hill Road" "Pune" "Maharashtra" "1234567890" "a@b.co"
    "/app/uploads/photo.jpg" [byte 0xFF, byte 0xD8, byte 0xFF, byte 0xE0] 7
    rfl rfl rfl rfl (by decide) (by decide) (by decide) (by decide)
    ⟨by decide, by decide⟩
    ⟨['a'], ['b'], ['c', 'o'], rfl, by decide, by decide, by decide, by decide, by decide,
      by decide⟩
    rfl (by decide) rfl rfl rfl rfl

/-- C3 (no partial rows): whenever the handler executes an insert, the request
parsed, its violation list is empty, each of the six text parameters is a
present, non-empty string taken from the parsed fields, and the image parameter
is the content read from the staged file, whose path is present and non-empty.
Hence no input, a failed validation without a staged image included, leads to
an insert with a missing field. -/
theorem no_partial_rows (w : World) (req : Request) (params : InsertParams)
    (h : params ∈ inserts (handler w req).2) :
    ∃ p, req.form = .ok p ∧ validationErrors p = [] ∧
      (∃ name, params.name = some name ∧ p.fields.name = some name ∧ name ≠ "") ∧
      (∃ address, params.address = some address ∧ p.fields.address = some address ∧
        address ≠ "") ∧
      (∃ city, params.city = some city ∧ p.fields.city = some city ∧ city ≠ "") ∧
      (∃ state, params.state = some state ∧ p.fields.state = some state ∧ state ≠ "") ∧
      (∃ contact, params.contact = some contact ∧ p.fields.contact = some contact ∧
        contact ≠ "") ∧
      (∃ email_id, params.email_id = some email_id ∧ p.fields.email_id = some email_id ∧
        email_id ≠ "") ∧
      ∃ path, path ≠ "" ∧ p.image = some ⟨some path⟩ ∧ w.readFile path = .ok params.image := by
  obtain ⟨p, hform, hp⟩ := handler_inserts h
  obtain ⟨hvalid, hp⟩ := tryBody_inserts hp
  obtain ⟨path, hpath, hread, h1, h2, h3, h4, h5, h6⟩ := persist_inserts hp
  obtain ⟨v1, v2, v3, v4, v5, v6, -⟩ := (validationErrors_eq_nil_iff p).mp hvalid
  have present : ∀ v : Option String, truthy v = true → ∃ s, v = some s ∧ s ≠ "" := by
    intro v hv
    cases v with
    | none => simp [truthy] at hv
    | some s => exact ⟨s, rfl, by simpa [truthy] using hv⟩
  have contactPresent : ∃ s, p.fields.contact = some s ∧ s ≠ "" := by
    cases hc : p.fields.contact with
    | none => simp [hc, contactOk] at v5
    | some s =>
      rw [hc] at v5
      exact present _ (by simp only [contactOk, Bool.and_eq_true] at v5; exact v5.1)
  have emailPresent : ∃ s, p.fields.email_id = some s ∧ s ≠ "" := by
    cases hc : p.fields.email_id with
    | none => simp [hc, emailOk] at v6
    | some s =>
      rw [hc] at v6
      exact present _ (by simp only [emailOk, Bool.and_eq_true] at v6; exact v6.1)
  obtain ⟨imageFile, himage, hfile, htruthy⟩ := stagedPath_eq_some hpath
  refine ⟨p, hform, hvalid, ?_, ?_, ?_, ?_, ?_, ?_, path, ?_, ?_, hread⟩
  · obtain ⟨s, hs, hne⟩ := present _ v1
    exact ⟨s, h1.trans hs, hs, hne⟩
  · obtain ⟨s, hs, hne⟩ := present _ v2
    exact ⟨s, h2.trans hs, hs, hne⟩
  · obtain ⟨s, hs, hne⟩ := present _ v3
    exact ⟨s, h3.trans hs, hs, hne⟩
  · obtain ⟨s, hs, hne⟩ := present _ v4
    exact ⟨s, h4.trans hs, hs, hne⟩
  · obtain ⟨s, hs, hne⟩ := contactPresent
    exact ⟨s, h5.trans hs, hs, hne⟩
  · obtain ⟨s, hs, hne⟩ := emailPresent
    exact ⟨s, h6.trans hs, hs, hne⟩
  · rw [hfile] at htruthy
    simpa [truthy] using htruthy
  · rw [himage]
    obtain ⟨filepath⟩ := imageFile
    simp only at hfile
    rw [hfile]

/-- Witness of C3: the insert of the sample valid submission. -/
theorem no_partial_rows_witness :
    (⟨some "Green Valley School", some "12 Hill Road", some "Pune", some "Maharashtra",
        some "1234567890", some "a@b.co", [byte 0xFF, byte 0xD8, byte 0xFF, byte 0xE0]⟩ :
      InsertParams) ∈ inserts (handler calmWorld goodRequest).2 ∧
    ∃ p, goodRequest.form = .ok p ∧ validationErrors p = [] ∧
      (∃ name, some "Green Valley School" = some name ∧ p.fields.name = some name ∧
        name ≠ "") ∧
      (∃ address, some "12 Hill Road" = some address ∧ p.fields.address = some address ∧
        address ≠ "") ∧
      (∃ city, some "Pune" = some city ∧ p.fields.city = some city ∧ city ≠ "") ∧
      (∃ state, some "Maharashtra" = some state ∧ p.fields.state = some state ∧ state ≠ "") ∧
      (∃ contact, some "1234567890" = some contact ∧ p.fields.contact = some contact ∧
        contact ≠ "") ∧
      (∃ email_id, some "a@b.co" = some email_id ∧ p.fields.email_id = some email_id ∧
        email_id ≠ "") ∧
      ∃ path, path ≠ "" ∧ p.image = some ⟨some path⟩ ∧
        calmWorld.readFile path = .ok [byte 0xFF, byte 0xD8, byte 0xFF, byte 0xE0] :=
  ⟨by decide, no_partial_rows calmWorld goodRequest
    ⟨some "Green Valley School", some "12 Hill Road", some "Pune", some "Maharashtra",
      some "1234567890", some "a@b.co", [byte 0xFF, byte 0xD8, byte 0xFF, byte 0xE0]⟩
    (by decide)⟩

/-- C4: the violation list is exactly the list of the messages
`Name is required`, `Address is required`, `City is required`,
`State is required`, `Contact must be a 10-digit number`,
`Valid email is required`, `Image is required` whose own check fails, in that
order; whether a message is present depends on its own check only, and a
submission with every field and the image missing yields all seven. -/
theorem validation_accumulates_all_violations (p : Parsed) :
    validationErrors p =
      ([(!truthy p.fields.name, "Name is required"),
        (!truthy p.fields.address, "Address is required"),
        (!truthy p.fields.city, "City is required"),
        (!truthy p.fields.state, "State is required"),
        (!contactOk p.fields.contact, "Contact must be a 10-digit number"),
        (!emailOk p.fields.email_id, "Valid email is required"),
        ((stagedPath p.image).isNone, "Image is required")].filter fun c => c.1).map
        (fun c => c.2) ∧
    validationErrors { fields := ⟨none, none, none, none, none, none⟩, image := none } =
      ["Name is required", "Address is required", "City is required", "State is required",
        "Contact must be a 10-digit number", "Valid email is required", "Image is required"] := by
  refine ⟨?_, by decide⟩
  unfold validationErrors pushIf
  cases truthy p.fields.name <;> cases truthy p.fields.address <;>
    cases truthy p.fields.city <;> cases truthy p.fields.state <;>
    cases contactOk p.fields.contact <;> cases emailOk p.fields.email_id <;>
    cases (stagedPath p.image).isNone <;> rfl

/-- C5: the contact check passes exactly when contact is a string of exactly
ten characters, each an ASCII digit; for every other value (missing, empty,
shorter, longer, or with a non-digit) the message
`Contact must be a 10-digit number` is in the violation list, and only then.
The value 12345 fails the check and 1234567890 passes it. -/
theorem contact_check_is_ten_digits (p : Parsed) :
    (contactOk p.fields.contact = true ↔ ∃ s, p.fields.contact = some s ∧ TenDigits s) ∧
    ("Contact must be a 10-digit number" ∈ validationErrors p ↔
      ¬ ∃ s, p.fields.contact = some s ∧ TenDigits s) ∧
    "Contact must be a 10-digit number" ∈
      validationErrors { p with fields := { p.fields with contact := some "12345" } } ∧
    "Contact must be a 10-digit number" ∉
      validationErrors { p with fields := { p.fields with contact := some "1234567890" } } ∧
    contactOk (some "12345") = false ∧ contactOk (some "1234567890") = true := by
  have hmem : ∀ q : Parsed, "Contact must be a 10-digit number" ∈ validationErrors q ↔
      contactOk q.fields.contact = false := by
    intro q
    rw [mem_validationErrors]
    simp
  refine ⟨contactOk_iff _, ?_, ?_, ?_, by decide, by decide⟩
  · rw [hmem, ← contactOk_iff]
    simp
  · rw [hmem]
    show contactOk (some "12345") = false
    decide
  · rw [hmem]
    show ¬ contactOk (some "1234567890") = false
    decide

/-- C6 as the code has it: the email check passes exactly when email_id is a
string some contiguous part of which has the shape local@domain.tld (one or
more non-white-space characters, an at sign, one or more non-white-space
characters, a dot, one or more non-white-space characters); text before and
after that part is allowed.  For every other value (missing, empty, or without
such a part) the message `Valid email is required` is in the violation list,
and only then.  The value not-an-email fails the check and a@b.co passes it. -/
theorem email_check_is_contains_shape (p : Parsed) :
    (emailOk p.fields.email_id = true ↔
      ∃ s, p.fields.email_id = some s ∧ ContainsEmailShape s.data) ∧
    ("Valid email is required" ∈ validationErrors p ↔
      ¬ ∃ s, p.fields.email_id = some s ∧ ContainsEmailShape s.data) ∧
    "Valid email is required" ∈
      validationErrors { p with fields := { p.fields with email_id := some "not-an-email" } } ∧
    "Valid email is required" ∉
      validationErrors { p with fields := { p.fields with email_id := some "a@b.co" } } ∧
    emailOk (some "not-an-email") = false ∧ emailOk (some "a@b.co") = true := by
  have hmem : ∀ q : Parsed, "Valid email is required" ∈ validationErrors q ↔
      emailOk q.fields.email_id = false := by
    intro q
    rw [mem_validationErrors]
    simp
  refine ⟨emailOk_iff _, ?_, ?_, ?_, by decide, by decide⟩
  · rw [hmem, ← emailOk_iff]
    simp
  · rw [hmem]
    show emailOk (some "not-an-email") = false
    decide
  · rw [hmem]
    show ¬ emailOk (some "a@b.co") = false
    decide

/-- Counterexample to C6 as stated: the value ` a@b.co`, with a leading space,
passes the email check although the whole value does not have the shape
local@domain.tld. -/
theorem email_check_accepts_surrounding_text :
    emailOk (some " a@b.co") = true ∧ ¬ EmailShape (" a@b.co" : String).data := by
  refine ⟨by decide, ?_⟩
  rintro ⟨l, d, t, hs, -, -, -, hl, hd, ht⟩
  have hmem : ' ' ∈ l ++ '@' :: (d ++ '.' :: t) := by
    rw [← hs]
    decide
  simp only [List.mem_append, List.mem_cons] at hmem
  rcases hmem with h | h | h | h | h
  · exact absurd (hl _ h) (by decide)
  · exact absurd h (by decide)
  · exact absurd (hd _ h) (by decide)
  · exact absurd h (by decide)
  · exact absurd (ht _ h) (by decide)

/-- C9 as the code has it: for every submission that reaches the database
insert, name, address, city and state each have length at least 1. -/
theorem inserted_fields_are_non_empty (w : World) (req : Request) (params : InsertParams)
    (h : params ∈ inserts (handler w req).2) :
    (∃ name, params.name = some name ∧ 1 ≤ name.length) ∧
    (∃ address, params.address = some address ∧ 1 ≤ address.length) ∧
    (∃ city, params.city = some city ∧ 1 ≤ city.length) ∧
    (∃ state, params.state = some state ∧ 1 ≤ state.length) := by
  obtain ⟨p, -, hp⟩ := handler_inserts h
  obtain ⟨hvalid, hp⟩ := tryBody_inserts hp
  obtain ⟨path, -, -, h1, h2, h3, h4, -, -⟩ := persist_inserts hp
  obtain ⟨v1, v2, v3, v4, -⟩ := (validationErrors_eq_nil_iff p).mp hvalid
  rw [h1, h2, h3, h4]
  exact ⟨(truthy_iff _).mp v1, (truthy_iff _).mp v2, (truthy_iff _).mp v3, (truthy_iff _).mp v4⟩

/-- Witness of C9 as the code has it: the insert of the submission with
one-character name, address, city and state. -/
theorem inserted_fields_are_non_empty_witness :
    (⟨some "A", some "B", some "C", some "D", some "1234567890", some "a@b.co",
        [byte 0xFF, byte 0xD8, byte 0xFF, byte 0xE0]⟩ : InsertParams) ∈
      inserts (handler calmWorld tersePlaceRequest).2 ∧
    (∃ name, some "A" = some name ∧ 1 ≤ name.length) ∧
    (∃ address, some "B" = some address ∧ 1 ≤ address.length) ∧
    (∃ city, some "C" = some city ∧ 1 ≤ city.length) ∧
    (∃ state, some "D" = some state ∧ 1 ≤ state.length) :=
  ⟨by decide, inserted_fields_are_non_empty calmWorld tersePlaceRequest
    ⟨some "A", some "B", some "C", some "D", some "1234567890", some "a@b.co",
      [byte 0xFF, byte 0xD8, byte 0xFF, byte 0xE0]⟩
    (by decide)⟩

/-- Counterexample to C9 as stated: a submission whose name, address, city and
state have one character each reaches the insert, so the inserted name is
shorter than 2, the address shorter than 5, the city and the state shorter
than 2. -/
theorem one_character_fields_are_inserted :
    inserts (handler calmWorld tersePlaceRequest).2 =
      [⟨some "A", some "B", some "C", some "D", some "1234567890", some "a@b.co",
        [byte 0xFF, byte 0xD8, byte 0xFF, byte 0xE0]⟩] ∧
    ("A" : String).length < 2 ∧ ("B" : String).length < 5 ∧ ("C" : String).length < 2 ∧
    ("D" : String).length < 2 := by
  decide

/-- C10: when a parsed submission has at least one violation and an image
staged under a file path, the handler attempts to delete the staged file and
answers 400 with the violation list, whether the deletion succeeds or fails; a
failed deletion is logged and nothing else, and no insert is executed. -/
theorem cleanup_is_best_effort (w : World) (req : Request) (p : Parsed) (path : String)
    (hsetup : (ensureUploadDirectory w).2 = .ok ())
    (hmethod : req.method = "POST") (hform : req.form = .ok p)
    (hviolation : validationErrors p ≠ []) (hstaged : stagedPath p.image = some path) :
    (handler w req).1 =
      { status := 400, body := .errorDetails "Validation Failed" (validationErrors p) } ∧
    (handler w req).2 = (ensureUploadDirectory w).1 ++
      (match w.unlink path with
        | none => [.unlink path]
        | some cleanupError => [.unlink path, .log "Error cleaning up file:" cleanupError]) ∧
    inserts (handler w req).2 = [] := by
  have hlen : (validationErrors p).length > 0 := List.length_pos.mpr hviolation
  have htry : tryBody w p =
      ((match w.unlink path with
        | none => [.unlink path]
        | some cleanupError => [.unlink path, .log "Error cleaning up file:" cleanupError]),
      .ok { status := 400, body := .errorDetails "Validation Failed" (validationErrors p) }) := by
    simp only [tryBody, hlen, if_true, hstaged]
  rw [handler_of_parsed hsetup hmethod hform, htry]
  refine ⟨rfl, rfl, ?_⟩
  simp only [inserts_append, inserts_setup, List.nil_append]
  cases w.unlink path <;> rfl

/-- Witness of C10: a five-digit contact with a staged image, in a world where
deleting the staged file fails. -/
theorem cleanup_is_best_effort_witness :
    (ensureUploadDirectory stickyWorld).2 = .ok () ∧ shortContactRequest.method = "POST" ∧
    (handler stickyWorld shortContactRequest).1 =
      { status := 400
        body := .errorDetails "Validation Failed" ["Contact must be a 10-digit number"] } ∧
    (handler stickyWorld shortContactRequest).2 = (ensureUploadDirectory stickyWorld).1 ++
      (match stickyWorld.unlink "/app/uploads/photo.jpg" with
        | none => [.unlink "/app/uploads/photo.jpg"]
        | some cleanupError =>
          [.unlink "/app/uploads/photo.jpg", .log "Error cleaning up file:" cleanupError]) ∧
    inserts (handler stickyWorld shortContactRequest).2 = [] :=
  ⟨rfl, rfl, cleanup_is_best_effort stickyWorld shortContactRequest
    { fields := { goodFields with contact := some "12345" }, image := some stagedImage }
    "/app/uploads/photo.jpg" rfl rfl rfl (by decide) (by decide)⟩

end AddSchool

namespace ShowSchools

/-! ## The claims about the listing handler -/

theorem handler_of_rows {w : World} {rows : List Row} (hconn : w.getConnection = none)
    (hquery : w.query = .ok rows) :
    handler w = { status := 200, body := .schools (rows.map withImage) } := by
  simp only [handler, hconn, hquery]

theorem drop_prefix (rest : String) :
    ("data:image/jpeg;base64," ++ rest).data.drop prefixLength = rest.data := by
  rw [String.data_append]
  exact List.drop_left _ _

/-- C7 (listing round trip): for every row returned by the query whose image
blob is present, of any length, the image of the element at the same position
of the response is `data:image/jpeg;base64,` followed by the standard base64
encoding of the blob, and decoding what follows the prefix gives back exactly
the bytes of the blob. -/
theorem listing_image_round_trip (w : World) (rows : List Row) (i : Nat) (school : Row)
    (blob : Bytes) (hconn : w.getConnection = none) (hquery : w.query = .ok rows)
    (hrow : rows[i]? = some school) (himage : school.image = some blob) :
    ∃ items item, handler w = { status := 200, body := .schools items } ∧
      items[i]? = some item ∧
      item.image = "data:image/jpeg;base64," ++ toBase64 blob ∧
      b64Decode (item.image.data.drop prefixLength) = some blob := by
  refine ⟨rows.map withImage, withImage school, handler_of_rows hconn hquery, ?_, ?_, ?_⟩
  · rw [List.getElem?_map, hrow]
    rfl
  · simp only [withImage, himage]
  · have himg : (withImage school).image = "data:image/jpeg;base64," ++ toBase64 blob := by
      simp only [withImage, himage]
    rw [himg, drop_prefix]
    exact b64Decode_b64Encode blob

/-- Witness of C7: the first row of the sample database, whose image is the two
bytes FF D8. -/
theorem listing_image_round_trip_witness :
    ∃ items item, handler twoRowWorld = { status := 200, body := .schools items } ∧
      items[0]? = some item ∧
      item.image = "data:image/jpeg;base64," ++ toBase64 [byte 0xFF, byte 0xD8] ∧
      b64Decode (item.image.data.drop prefixLength) = some [byte 0xFF, byte 0xD8] :=
  listing_image_round_trip twoRowWorld
    [ { id := 1, name := "Green Valley School", address := "12 Hill Road", city := "Pune",
        image := some [byte 0xFF, byte 0xD8] },
      { id := 2, name := "Lake View", address := "3 Shore Lane", city := "Goa",
        image := none } ]
    0
    { id := 1, name := "Green Valley School", address := "12 Hill Road", city := "Pune",
      image := some [byte 0xFF, byte 0xD8] }
    [byte 0xFF, byte 0xD8] rfl rfl rfl rfl

/-- C8: for every list of rows the query returns, the handler answers 200 with
an array of the same length in the same order, whose element at each position
has the id, name, address and city of the row at that position; only the image
differs: the data URI when the blob is present, `/placeholder-image.jpg` when
it is absent. -/
theorem listing_preserves_rows (w : World) (rows : List Row)
    (hconn : w.getConnection = none) (hquery : w.query = .ok rows) :
    ∃ items, handler w = { status := 200, body := .schools items } ∧
      items.length = rows.length ∧
      ∀ (i : Nat) (school : Row), rows[i]? = some school →
        ∃ item, items[i]? = some item ∧ item.id = school.id ∧ item.name = school.name ∧
          item.address = school.address ∧ item.city = school.city ∧
          item.image =
            (match school.image with
              | some blob => "data:image/jpeg;base64," ++ toBase64 blob
              | none => "/placeholder-image.jpg") := by
  refine ⟨rows.map withImage, handler_of_rows hconn hquery, List.length_map _ _, ?_⟩
  intro i school hrow
  refine ⟨withImage school, ?_, rfl, rfl, rfl, rfl, rfl⟩
  rw [List.getElem?_map, hrow]
  rfl

/-- Witness of C8: the sample database with one imaged and one imageless row. -/
theorem listing_preserves_rows_witness :
    ∃ items, handler twoRowWorld = { status := 200, body := .schools items } ∧
      items.length = 2 ∧
      ∀ (i : Nat) (school : Row),
        ([ { id := 1, name := "Green Valley School", address := "12 Hill Road", city := "Pune",
             image := some [byte 0xFF, byte 0xD8] },
           { id := 2, name := "Lake View", address := "3 Shore Lane", city := "Goa",
             image := none } ] : List Row)[i]? = some school →
        ∃ item, items[i]? = some item ∧ item.id = school.id ∧ item.name = school.name ∧
          item.address = school.address ∧ item.city = school.city ∧
          item.image =
            (match school.image with
              | some blob => "data:image/jpeg;base64," ++ toBase64 blob
              | none => "/placeholder-image.jpg") :=
  listing_preserves_rows twoRowWorld _ rfl rfl

end ShowSchools

end RenoTask
